import Mathlib

/-!
Verification of the livebox client core (request envelope, login, cookie
name shim, port-range and protocol codecs, port-forwarding service and
the resource adapter write-back) against its natural-language spec.

The Go sources are shallowly embedded: Go `int` becomes `Int` (no value in
these claims approaches the 64-bit bound, so wraparound is immaterial and
the `strconv` range check is elided), JSON byte bodies become an explicit
`Json` value (`none` standing for a body that is not well-formed JSON),
the network becomes an oracle function from the outgoing HTTP request to
an outcome, and every fallible Go function returns `Option`/`Except`.
-/

/-- A JSON value. `obj` keeps fields in textual order; `num` is restricted
to integers, which covers every numeric field the client touches. -/
inductive Json where
  | null
  | bool (b : Bool)
  | num (n : Int)
  | str (s : String)
  | arr (elems : List Json)
  | obj (fields : List (String × Json))

/-- Values storable in the `parameters` map of an API request
(Go `map[string]any`; the client only ever stores strings, ints and bools). -/
inductive ParamValue where
  | pstr (s : String)
  | pint (n : Int)
  | pbool (b : Bool)
deriving DecidableEq

/-- Go struct `apiRequest` (request.go): the generic request envelope. -/
structure apiRequest where
  Method : String
  Service : String
  Parameters : List (String × ParamValue)
deriving DecidableEq

/-- The outgoing HTTP request that `doReq`/`doAuthReq` build: URL,
Authorization header, Content-Type header and the marshalled envelope. -/
structure httpRequestOut where
  url : String
  authorization : String
  contentType : String
  body : apiRequest
deriving DecidableEq

/-- Outcome of one HTTP round trip as seen by the client: a transport
failure, or a response carrying a status code and a body; the body is
`none` when the bytes are not well-formed JSON and otherwise the decoded
JSON value. -/
inductive HttpOutcome where
  | failure
  | response (statusCode : Nat) (body : Option Json)

/-- The network: what the HTTP client returns for each outgoing request. -/
def Network : Type := httpRequestOut → HttpOutcome

/-- Go struct `Client` (client.go): base host and session token. The
cookie jar and transport live behind the `Network` oracle. -/
structure Client where
  host : String
  token : String
deriving DecidableEq

/-- Field lookup in a JSON object, last occurrence of the key winning,
matching how encoding/json fills a field from duplicate keys. (Go also
falls back to case-insensitive matching, which no input here exercises.) -/
def jLookup (fields : List (String × Json)) (k : String) : Option Json :=
  (List.filter (fun f => f.1 == k) fields).getLast?.map (fun f => f.2)

/-- Go struct `apiResponse` (request.go): both fields are
`json.RawMessage`, so each holds the raw bytes of the field when the key
is present (always at least one byte, even for `null` or `[]`) and is
empty exactly when the key is absent. We model a field as the decoded
JSON value when present and `none` when absent; `len(raw) > 0` is
therefore presence of the key. -/
structure apiResponse where
  Status : Option Json
  Errors : Option Json

/-- Decoding the response body into `apiResponse`: a JSON object fills
the two raw fields, a JSON `null` leaves the zero struct, and any other
shape is a decode error for `json.Decoder.Decode` into a struct. -/
def decodeApiResponse : Json → Option apiResponse
  | Json.null => some ⟨none, none⟩
  | Json.obj fields => some ⟨jLookup fields "status", jLookup fields "errors"⟩
  | _ => none

/-- Errors of `doReq`: transport failure, malformed envelope, or an API
error carrying the raw errors payload. -/
inductive doReqError where
  | transport
  | decode
  | api (raw : Json)

/-- The outgoing request both executor entry points build: POST to
host/ws with the given Authorization value and the fixed content type. -/
def mkWsRequest (c : Client) (auth : String) (r : apiRequest) : httpRequestOut :=
  ⟨c.host ++ "/ws", auth, "application/x-sah-ws-4-call+json", r⟩

/-- Go `(*Client).doReq` (request.go): authenticated entry point of the
Request Executor. Builds the envelope request with header `X-Sah token`,
decodes the response envelope, fails with the raw errors payload when the
errors field is non-empty (present) and otherwise returns the status
payload. The HTTP status code of the response is never inspected. -/
def doReq (net : Network) (c : Client) (r : apiRequest) :
    Except doReqError (Option Json) :=
  match net (mkWsRequest c ("X-Sah " ++ c.token) r) with
  | HttpOutcome.failure => Except.error doReqError.transport
  | HttpOutcome.response _ none => Except.error doReqError.decode
  | HttpOutcome.response _ (some body) =>
    match decodeApiResponse body with
    | none => Except.error doReqError.decode
    | some resp =>
      match resp.Errors with
      | some errs => Except.error (doReqError.api errs)
      | none => Except.ok resp.Status

/-- Go `(*Client).doAuthReq` (request.go): unauthenticated entry point.
Same request construction with the literal `X-Sah-Login` header, but the
raw response is handed back undecoded (`none` = transport failure). -/
def doAuthReq (net : Network) (c : Client) (r : apiRequest) :
    Option (Nat × Option Json) :=
  match net (mkWsRequest c "X-Sah-Login" r) with
  | HttpOutcome.failure => none
  | HttpOutcome.response sc body => some (sc, body)

/-- Errors of `login`: transport failure or JSON decode failure. The Go
code has no other failure path. -/
inductive loginError where
  | transport
  | decode
deriving DecidableEq

/-- Decoding the login response body into the anonymous Go struct
`struct Data struct ContextID string` (client.go): missing keys and JSON
`null` leave zero values, a wrong shape at any inspected position is a
decode error, and everything else is ignored. -/
def decodeLoginResp : Json → Option String
  | Json.null => some ""
  | Json.obj fields =>
    match jLookup fields "data" with
    | none => some ""
    | some Json.null => some ""
    | some (Json.obj dfields) =>
      match jLookup dfields "contextID" with
      | none => some ""
      | some Json.null => some ""
      | some (Json.str s) => some s
      | some _ => none
    | some _ => none
  | _ => none

/-- The fixed payload `login` sends (client.go). -/
def loginPayload (password : String) : apiRequest :=
  ⟨"createContext", "sah.Device.Information",
    [("applicationName", ParamValue.pstr "webui"),
     ("username", ParamValue.pstr "admin"),
     ("password", ParamValue.pstr password)]⟩

/-- Go `(*Client).login` (client.go): sends the createContext call
through `doAuthReq`, decodes `data.contextID` from the raw response and
stores it as the session token. Note that the errors payload of the
response is never looked at. -/
def login (net : Network) (c : Client) (password : String) :
    Except loginError Client :=
  match doAuthReq net c (loginPayload password) with
  | none => Except.error loginError.transport
  | some (_, none) => Except.error loginError.decode
  | some (_, some j) =>
    match decodeLoginResp j with
    | none => Except.error loginError.decode
    | some cid => Except.ok { c with token := cid }

/-- Go `type Protocol string` (protocol.go). Arbitrary strings inhabit
the type; the named constants below are the declared values. -/
abbrev Protocol := String

def ProtocolUnknown : Protocol := "unknown"

def ProtocolTCP : Protocol := "tcp"

def ProtocolUDP : Protocol := "udp"

def ProtocolTCPUDP : Protocol := "tcp/udp"

/-- Go `Protocol.intString` (protocol.go): encode to the numeric wire
form, empty string for anything but the three concrete protocols. -/
def Protocol.intString (p : Protocol) : String :=
  if p = ProtocolTCP then "6"
  else if p = ProtocolUDP then "17"
  else if p = ProtocolTCPUDP then "6,17"
  else ""

/-- Go `parseProtocol` (protocol.go): decode the numeric wire form,
Unknown for any unrecognized string. -/
def parseProtocol (p : String) : Protocol :=
  if p = "6" then ProtocolTCP
  else if p = "17" then ProtocolUDP
  else if p = "6,17" then ProtocolTCPUDP
  else ProtocolUnknown

/-- Decimal digit character for a value below ten. -/
def digitChar (d : Nat) : Char := Char.ofNat (48 + d)

/-- Numeric value of a decimal digit character, as in strconv.ParseInt. -/
def digitVal (c : Char) : Option Nat :=
  if 48 ≤ c.toNat ∧ c.toNat ≤ 57 then some (c.toNat - 48) else none

/-- Accumulating base-10 parse of a digit sequence. -/
def parseDigitsAux (acc : Nat) : List Char → Option Nat
  | [] => some acc
  | c :: cs =>
    match digitVal c with
    | none => none
    | some d => parseDigitsAux (acc * 10 + d) cs

/-- Base-10 parse of a non-empty all-digit sequence. -/
def parseDigits (l : List Char) : Option Nat :=
  match l with
  | [] => none
  | _ => parseDigitsAux 0 l

/-- Fuel-driven decimal printer (most significant digit first); the fuel
only bounds recursion depth and `natDigits` always supplies enough. -/
def natDigitsAux : Nat → Nat → List Char
  | 0, _ => []
  | fuel + 1, n =>
    if n < 10 then [digitChar n]
    else natDigitsAux fuel (n / 10) ++ [digitChar (n % 10)]

/-- Decimal digits of a natural number. -/
def natDigits (n : Nat) : List Char := natDigitsAux (n + 1) n

/-- Model of Go strconv.Itoa on our unbounded `Int`: sign then digits. -/
def intToChars (i : Int) : List Char :=
  if i < 0 then '-' :: natDigits (-i).toNat else natDigits i.toNat

/-- strconv.Itoa as a `String`. -/
def intToString (i : Int) : String := String.mk (intToChars i)

/-- Model of Go strconv.Atoi: optional sign, then a non-empty run of
decimal digits and nothing else. (The int64 range check is elided: our
`Int` model of Go int is unbounded, and no claim exercises values near
the bound.) -/
def goAtoi (s : List Char) : Option Int :=
  match s with
  | [] => none
  | c :: rest =>
    if c = '+' then (parseDigits rest).map (fun n => (n : Int))
    else if c = '-' then (parseDigits rest).map (fun n => -(n : Int))
    else (parseDigits (c :: rest)).map (fun n => (n : Int))

/-- strconv.Atoi on a `String`. -/
def goAtoiStr (s : String) : Option Int := goAtoi s.data

/-- Split at the first occurrence of a separator character, as
strings.SplitN with limit 2: the second component is `none` when the
separator does not occur. -/
def splitFirst (sep : Char) : List Char → List Char × Option (List Char)
  | [] => ([], none)
  | c :: cs =>
    if c = sep then ([], some cs)
    else
      match splitFirst sep cs with
      | (a, b) => (c :: a, b)

/-- Go `parsePortRange` (port_forwarding.go): split on the first dash;
one segment gives (port, 0), two segments give (first, second - first),
and a non-integer segment is a parse error. -/
def parsePortRange (port : String) : Option (Int × Int) :=
  match splitFirst '-' port.data with
  | (p0, none) =>
    match goAtoi p0 with
    | none => none
    | some n => some (n, 0)
  | (p0, some p1) =>
    match goAtoi p0 with
    | none => none
    | some a =>
      match goAtoi p1 with
      | none => none
      | some b => some (a, b - a)

/-- Go `formatPortRange` (port_forwarding.go): a range of 0 or 1
collapses to the plain port string, anything else prints
port-dash-(port plus range). -/
def formatPortRange (port portRange : Int) : String :=
  if portRange = 0 ∨ portRange = 1 then intToString port
  else intToString port ++ "-" ++ intToString (port + portRange)

/-- Decimal digit test. -/
def isDigitCh (c : Char) : Bool :=
  decide (48 ≤ c.toNat) && decide (c.toNat ≤ 57)

/-- Hexadecimal digit test. -/
def isHexDigit (c : Char) : Bool :=
  isDigitCh c || (decide (97 ≤ c.toNat) && decide (c.toNat ≤ 102))
    || (decide (65 ≤ c.toNat) && decide (c.toNat ≤ 70))

/-- Full split on a separator character, as strings.Split. -/
def splitOnCh (sep : Char) : List Char → List (List Char)
  | [] => [[]]
  | c :: cs =>
    if c = sep then [] :: splitOnCh sep cs
    else
      match splitOnCh sep cs with
      | [] => [[c]]
      | g :: gs => (c :: g) :: gs

/-- One dotted-quad field per the netip parser Go 1.17+ uses underneath
net.ParseIP: one to three decimal digits, value at most 255 and no
leading zero. -/
def isV4Field (f : List Char) : Bool :=
  match f with
  | [] => false
  | [c] => isDigitCh c
  | c :: _ :: _ =>
    decide (c ≠ '0') && decide (f.length ≤ 3) && f.all isDigitCh &&
      (match parseDigits f with
       | some v => decide (v ≤ 255)
       | none => false)

/-- Dotted-quad IPv4 literal: exactly four valid fields. -/
def parseIPv4Chars (s : List Char) : Bool :=
  match splitOnCh '.' s with
  | fs => decide (fs.length = 4) && fs.all isV4Field

/-- Split at the first occurrence of a double colon. -/
def splitDoubleColon : List Char → Option (List Char × List Char)
  | [] => none
  | [_] => none
  | ':' :: ':' :: rest => some ([], rest)
  | c :: cs => (splitDoubleColon cs).map (fun p => (c :: p.1, p.2))

/-- Value of one hexadecimal digit character (0 for non-hex input, which
`isV6Group` excludes separately). -/
def hexDigitVal (c : Char) : Nat :=
  if 48 ≤ c.toNat ∧ c.toNat ≤ 57 then c.toNat - 48
  else if 97 ≤ c.toNat ∧ c.toNat ≤ 102 then c.toNat - 87
  else if 65 ≤ c.toNat ∧ c.toNat ≤ 70 then c.toNat - 55
  else 0

/-- Value of a hexadecimal digit sequence. -/
def hexValue (g : List Char) : Nat :=
  g.foldl (fun acc c => acc * 16 + hexDigitVal c) 0

/-- One 16-bit IPv6 group: at least one hex digit, with the accumulated
value capped at 0xFFFF. Go checks the accumulator after each digit; as
it never decreases, that is the same as the whole field's value fitting
in 16 bits, so a zero-padded field such as 00001 is valid while a field
whose value overflows is not. There is no digit-count cap. -/
def isV6Group (g : List Char) : Bool :=
  decide (g ≠ []) && g.all isHexDigit && decide (hexValue g ≤ 65535)

/-- Count of 16-bit groups in a colon-separated side that must be all
hex groups (the part left of a double colon). -/
def v6GroupsHexOnly : List (List Char) → Option Nat
  | [] => some 0
  | g :: gs =>
    if isV6Group g then (v6GroupsHexOnly gs).map (fun n => n + 1) else none

/-- Count of 16-bit groups in a colon-separated side whose last group may
be an embedded dotted-quad (worth two groups). -/
def v6GroupsFull : List (List Char) → Option Nat
  | [] => some 0
  | [g] =>
    if isV6Group g then some 1
    else if parseIPv4Chars g then some 2
    else none
  | g :: gs =>
    if isV6Group g then (v6GroupsFull gs).map (fun n => n + 1) else none

/-- IPv6 literal per the netip parser: no zone (net.ParseIP rejects
zones), at most one double colon which must stand for at least one zero
group, eight groups total without it and at most seven with it, an
embedded dotted-quad allowed only at the end. -/
def parseIPv6Chars (s : List Char) : Bool :=
  if s.contains '%' then false
  else
    match splitDoubleColon s with
    | none =>
      match v6GroupsFull (splitOnCh ':' s) with
      | some k => decide (k = 8)
      | none => false
    | some (l, r) =>
      if (splitDoubleColon r).isSome then false
      else
        match (if l = [] then some 0 else v6GroupsHexOnly (splitOnCh ':' l)),
              (if r = [] then some 0 else v6GroupsFull (splitOnCh ':' r)) with
        | some a, some b => decide (a + b ≤ 7)
        | _, _ => false

/-- Dispatch loop of net.ParseIP: the first special character decides the
family; a percent sign first is an immediate failure and a string with no
special character is not an IP. -/
def goParseIPAux (orig : List Char) : List Char → Bool
  | [] => false
  | c :: cs =>
    if c = '.' then parseIPv4Chars orig
    else if c = ':' then parseIPv6Chars orig
    else if c = '%' then false
    else goParseIPAux orig cs

/-- Model of Go net.ParseIP as a validity test: true exactly when the
string is a valid IPv4 or IPv6 literal without a zone. -/
def goParseIP (s : String) : Bool := goParseIPAux s.data s.data

/-- Go struct `PortForwarding` (port_forwarding.go): a decoded rule. -/
structure PortForwarding where
  Name : String
  Protocol : Protocol
  ExternalPort : Int
  InternalPort : Int
  PortRange : Int
  Destination : String
  Enabled : Bool
deriving DecidableEq

/-- Go struct `getPortForwardingResp` (port_forwarding.go): the raw wire
record for one rule. -/
structure getPortForwardingResp where
  ID : String
  Origin : String
  Description : String
  Status : String
  SourceInterface : String
  Protocol : String
  ExternalPort : String
  InternalPort : String
  SourcePrefix : String
  DestinationIPAddress : String
  DestinationMACAddress : String
  LeaseDuration : Int
  HairpinNAT : Bool
  SymmetricSNAT : Bool
  UPnPV1Compat : Bool
  Enable : Bool
deriving DecidableEq

/-- Zero value of the raw wire record, as encoding/json starts from. -/
def zeroPFResp : getPortForwardingResp :=
  ⟨"", "", "", "", "", "", "", "", "", "", "", 0, false, false, false, false⟩

/-- Reading one string field of the raw record: absent key or JSON null
keeps the zero value, a string fills it, anything else is a decode
error. -/
def jStr : Option Json → Option String
  | none => some ""
  | some Json.null => some ""
  | some (Json.str s) => some s
  | some _ => none

/-- Reading one integer field. -/
def jInt : Option Json → Option Int
  | none => some 0
  | some Json.null => some 0
  | some (Json.num n) => some n
  | some _ => none

/-- Reading one boolean field. -/
def jBool : Option Json → Option Bool
  | none => some false
  | some Json.null => some false
  | some (Json.bool b) => some b
  | some _ => none

/-- Unmarshalling one raw record from a JSON value, per encoding/json
into `getPortForwardingResp`: the value must be an object (or null for
the zero record), every known key must have the declared type, unknown
keys are ignored. -/
def unmarshalPFResp : Json → Option getPortForwardingResp
  | Json.null => some zeroPFResp
  | Json.obj fs =>
    match jStr (jLookup fs "Id"), jStr (jLookup fs "Origin"),
          jStr (jLookup fs "Description"), jStr (jLookup fs "Status"),
          jStr (jLookup fs "SourceInterface"), jStr (jLookup fs "Protocol"),
          jStr (jLookup fs "ExternalPort"), jStr (jLookup fs "InternalPort"),
          jStr (jLookup fs "SourcePrefix"),
          jStr (jLookup fs "DestinationIPAddress"),
          jStr (jLookup fs "DestinationMACAddress"),
          jInt (jLookup fs "LeaseDuration"), jBool (jLookup fs "HairpinNAT"),
          jBool (jLookup fs "SymmetricSNAT"), jBool (jLookup fs "UPnPV1Compat"),
          jBool (jLookup fs "Enable") with
    | some a, some b, some c, some d, some e, some f, some g, some h, some i,
      some j, some k, some l, some m, some n, some o, some p =>
      some ⟨a, b, c, d, e, f, g, h, i, j, k, l, m, n, o, p⟩
    | _, _, _, _, _, _, _, _, _, _, _, _, _, _, _, _ => none
  | _ => none

/-- Unmarshalling the status payload of getPortForwarding into
`map[string]getPortForwardingResp`: the payload must be a JSON object
(null gives the empty nil map); entries keep textual order, standing for
one arbitrary iteration order of the Go map. The payload is `none` when
the status key was absent, which makes the unmarshal of empty bytes
fail. -/
def unmarshalPFMap : Option Json → Option (List (String × getPortForwardingResp))
  | none => none
  | some Json.null => some []
  | some (Json.obj fs) =>
    List.foldr
      (fun kv acc =>
        match unmarshalPFResp kv.2, acc with
        | some r, some l => some ((kv.1, r) :: l)
        | _, _ => none)
      (some []) fs
  | some _ => none

/-- Go strings.TrimPrefix: drop the leading marker when present. -/
def stripLeading (pre s : String) : String :=
  if pre.data.isPrefixOf s.data then String.mk (s.data.drop pre.data.length)
  else s

/-- Errors of the list decode loop, tagged by the failing step. -/
inductive listError where
  | doReqFailed (e : doReqError)
  | unmarshalData
  | parsePortRangeFailed
  | parseInternalPort

/-- The per-entry decode loop of `ListPortForwardings`: strip the fixed
webui marker from the identifier, decode the protocol and the external
port range via the codecs, parse the internal port as an integer, copy
destination and enabled verbatim; the first failing entry fails the whole
call. -/
def decodeEntries :
    List (String × getPortForwardingResp) → Except listError (List PortForwarding)
  | [] => Except.ok []
  | (id, raw) :: rest =>
    match parsePortRange raw.ExternalPort with
    | none => Except.error listError.parsePortRangeFailed
    | some (externalPort, portRange) =>
      match goAtoiStr raw.InternalPort with
      | none => Except.error listError.parseInternalPort
      | some internalPort =>
        match decodeEntries rest with
        | Except.error e => Except.error e
        | Except.ok out =>
          Except.ok
            ({ Name := stripLeading "webui_" id,
               Protocol := parseProtocol raw.Protocol,
               ExternalPort := externalPort,
               InternalPort := internalPort,
               PortRange := portRange,
               Destination := raw.DestinationIPAddress,
               Enabled := raw.Enable } :: out)

/-- The fixed payload `ListPortForwardings` sends (port_forwarding.go). -/
def listPayload : apiRequest :=
  ⟨"getPortForwarding", "Firewall", [("origin", ParamValue.pstr "webui")]⟩

/-- Go `(*Client).ListPortForwardings` (port_forwarding.go). -/
def ListPortForwardings (net : Network) (c : Client) :
    Except listError (List PortForwarding) :=
  match doReq net c listPayload with
  | Except.error e => Except.error (listError.doReqFailed e)
  | Except.ok data =>
    match unmarshalPFMap data with
    | none => Except.error listError.unmarshalData
    | some pfr => decodeEntries pfr

/-- Go struct `PortForwardingConfig` (port_forwarding.go). -/
structure PortForwardingConfig where
  Name : String
  ExternalPort : Int
  InternalPort : Int
  PortRange : Int
  Protocol : Protocol
  Destination : String
  Enabled : Bool
deriving DecidableEq

/-- Go `PortForwardingConfig.validate` (port_forwarding.go), checks in
source order; `some msg` is the validation error. -/
def PortForwardingConfig.validate (c : PortForwardingConfig) : Option String :=
  if c.Name = "" then some "empty name"
  else if c.ExternalPort < 1 ∨ c.ExternalPort > 65535 then
    some "invalid external port"
  else if c.InternalPort < 1 ∨ c.InternalPort > 65535 then
    some "invalid internal port"
  else if c.PortRange < 0 ∨ c.PortRange > 65535 then
    some "invalid port range"
  else if c.Protocol ≠ ProtocolTCP ∧ c.Protocol ≠ ProtocolUDP
      ∧ c.Protocol ≠ ProtocolTCPUDP then
    some "invalid protocol"
  else if goParseIP c.Destination = false then some "invalid destination"
  else none

/-- The setPortForwarding payload `UpsertPortForwarding` builds from a
validated config (port_forwarding.go). -/
def upsertPayload (cfg : PortForwardingConfig) : apiRequest :=
  ⟨"setPortForwarding", "Firewall",
    [("id", ParamValue.pstr ("webui_" ++ cfg.Name)),
     ("description", ParamValue.pstr cfg.Name),
     ("protocol", ParamValue.pstr cfg.Protocol.intString),
     ("internalPort", ParamValue.pint cfg.InternalPort),
     ("externalPort", ParamValue.pstr (formatPortRange cfg.ExternalPort cfg.PortRange)),
     ("destinationIPAddress", ParamValue.pstr cfg.Destination),
     ("sourcePrefix", ParamValue.pstr ""),
     ("persistent", ParamValue.pbool true),
     ("enable", ParamValue.pbool cfg.Enabled),
     ("sourceInterface", ParamValue.pstr "data"),
     ("origin", ParamValue.pstr "webui")]⟩

/-- Errors of `UpsertPortForwarding`: a validation failure (before any
network activity) or a request failure. -/
inductive upsertError where
  | validation (msg : String)
  | request (e : doReqError)

/-- Go `(*Client).UpsertPortForwarding` (port_forwarding.go). The second
component is the trace of requests put on the wire, so that making no
network call is visible in the model. -/
def UpsertPortForwarding (net : Network) (c : Client)
    (cfg : PortForwardingConfig) : Except upsertError Unit × List apiRequest :=
  match cfg.validate with
  | some msg => (Except.error (upsertError.validation msg), [])
  | none =>
    match doReq net c (upsertPayload cfg) with
    | Except.error e => (Except.error (upsertError.request e), [upsertPayload cfg])
    | Except.ok _ => (Except.ok (), [upsertPayload cfg])

/-- The real wire name of the session cookie (part of RoundTrip). -/
def realCookieName : List Char := ['/', 's', 'e', 's', 's', 'i', 'd']

/-- The store-safe name the shim substitutes for it. -/
def patchedCookieName : List Char := ['-', 's', 'e', 's', 's', 'i', 'd']

/-- Go strings.Contains: substring test (true for the empty pattern). -/
def containsSub (pat : List Char) : List Char → Bool
  | [] => pat.isEmpty
  | s@(_ :: rest) => pat.isPrefixOf s || containsSub pat rest

/-- Fuel-driven core of strings.ReplaceAll: leftmost, non-overlapping
occurrences. The fuel only bounds recursion depth and `replaceAll` always
supplies enough. -/
def replaceAllAux : Nat → List Char → List Char → List Char → List Char
  | 0, _, _, s => s
  | fuel + 1, pat, repl, s =>
    match s with
    | [] => []
    | c :: cs =>
      if pat ≠ [] ∧ pat.isPrefixOf (c :: cs) then
        repl ++ replaceAllAux fuel pat repl ((c :: cs).drop pat.length)
      else c :: replaceAllAux fuel pat repl cs

/-- Go strings.ReplaceAll for a non-empty pattern. (Go inserts the
replacement between characters when the pattern is empty; the shim only
ever uses the two seven-character cookie names.) -/
def replaceAll (pat repl s : List Char) : List Char :=
  replaceAllAux s.length pat repl s

/-- Outgoing half of `cookieNamePatcher.RoundTrip`: when the first value
of the Cookie header contains the store-safe name, rewrite that first
value by global substring replacement to the real wire name; an absent
header (empty value list) is left alone. -/
def patchRequestCookies (vs : List (List Char)) : List (List Char) :=
  match vs with
  | [] => []
  | v :: rest =>
    if containsSub patchedCookieName v then
      replaceAll patchedCookieName realCookieName v :: rest
    else v :: rest

/-- Incoming half of `cookieNamePatcher.RoundTrip`: symmetric rewrite of
the first Set-Cookie value from the real wire name to the store-safe
name. -/
def patchResponseCookies (vs : List (List Char)) : List (List Char) :=
  match vs with
  | [] => []
  | v :: rest =>
    if containsSub realCookieName v then
      replaceAll realCookieName patchedCookieName v :: rest
    else v :: rest

/-- Go `cookieNamePatcher.RoundTrip` (shim source file): patch the
request Cookie header, forward to the wrapped transport, patch the
response Set-Cookie header; a transport error passes through. The model
keeps just the two headers the shim touches. -/
def cookieNamePatcherRoundTrip
    (transport : List (List Char) → Option (List (List Char)))
    (reqCookieVals : List (List Char)) : Option (List (List Char)) :=
  match transport (patchRequestCookies reqCookieVals) with
  | none => none
  | some respSetCookieVals => some (patchResponseCookies respSetCookieVals)

/-- A Terraform framework value: null, unknown, or a known value. -/
inductive TfValue (α : Type) where
  | null
  | unknown
  | known (a : α)
deriving DecidableEq

/-- ValueString / ValueInt64 / ValueBool: the known value, or the zero
value on null and unknown. -/
def TfValue.valueOr {α : Type} (zero : α) : TfValue α → α
  | TfValue.null => zero
  | TfValue.unknown => zero
  | TfValue.known a => a

/-- Go struct `portForwardingModel` (resource adapter): the Terraform
state/plan model of one rule. -/
structure portForwardingModel where
  name : TfValue String
  protocol : TfValue String
  external_port : TfValue Int
  internal_port : TfValue Int
  port_range : TfValue Int
  destination : TfValue String
  enabled : TfValue Bool
deriving DecidableEq

/-- The `livebox.PortForwardingConfig` value `Create`/`Update` build
from a plan (resource adapter): each field through its Value accessor,
the protocol string cast to the Protocol string type. -/
def cfgFromPlan (plan : portForwardingModel) : PortForwardingConfig :=
  { Name := plan.name.valueOr "",
    ExternalPort := plan.external_port.valueOr 0,
    InternalPort := plan.internal_port.valueOr 0,
    PortRange := plan.port_range.valueOr 0,
    Protocol := plan.protocol.valueOr "",
    Destination := plan.destination.valueOr "",
    Enabled := plan.enabled.valueOr false }

/-- The write-back `Create`/`Update` perform on success (resource
adapter): every plan field is overwritten with the corresponding config
field as a known value, and that plan becomes the new state. -/
def writeBackPlan (cfg : PortForwardingConfig) : portForwardingModel :=
  { name := TfValue.known cfg.Name,
    protocol := TfValue.known cfg.Protocol,
    destination := TfValue.known cfg.Destination,
    external_port := TfValue.known cfg.ExternalPort,
    internal_port := TfValue.known cfg.InternalPort,
    port_range := TfValue.known cfg.PortRange,
    enabled := TfValue.known cfg.Enabled }

/-- Go `portForwardingResource.Create` (resource adapter), happy path
after the plan has been read: build the config, upsert it, and on
success set the state to the written-back plan; `none` is a diagnostics
abort with no state written. -/
def resourceCreate (net : Network) (c : Client) (plan : portForwardingModel) :
    Option portForwardingModel :=
  let cfg := cfgFromPlan plan
  match (UpsertPortForwarding net c cfg).1 with
  | Except.error _ => none
  | Except.ok _ => some (writeBackPlan cfg)

/-- Test fixture: a client with an established session. -/
def client1 : Client := ⟨"https://livebox.local", "tok"⟩

/-- Test fixture: a network answering HTTP 500 with an envelope that has
both a status payload and a non-empty errors payload. -/
def netErrEnvelope : Network := fun _ =>
  HttpOutcome.response 500
    (some (Json.obj [("status", Json.num 1), ("errors", Json.arr [Json.num 13])]))

/-- Test fixture: a network answering HTTP 500 with an envelope whose
errors key is absent. -/
def netOkEnvelope : Network := fun _ =>
  HttpOutcome.response 500 (some (Json.obj [("status", Json.num 1)]))

/-- Test fixture: a well-formed login response that carries an API-level
error payload and no data. -/
def loginErrBody : Json :=
  Json.obj [("errors",
    Json.arr [Json.obj [("error", Json.num 13),
                        ("description", Json.str "bad password")]])]

/-- Test fixture: a network answering the login call with HTTP 200 and
`loginErrBody`. -/
def netLoginErr : Network := fun _ =>
  HttpOutcome.response 200 (some loginErrBody)

/-- Test fixture: a network accepting every call with an empty success
envelope. -/
def netAccept : Network := fun _ =>
  HttpOutcome.response 200 (some (Json.obj [("status", Json.bool true)]))

/-- Test fixture: a valid port forwarding config. -/
def validCfg : PortForwardingConfig :=
  ⟨"wireguard", 51820, 51820, 0, ProtocolUDP, "192.168.10.200", true⟩

/-- Test fixture: a valid config whose external port range runs past
65535 (external port 65535, range extent 2). -/
def overflowCfg : PortForwardingConfig :=
  ⟨"edge", 65535, 1000, 2, ProtocolTCP, "192.168.10.200", true⟩

/-- Test fixture: a plan whose every attribute is a known value. -/
def plan1 : portForwardingModel :=
  ⟨TfValue.known "wireguard", TfValue.known "udp", TfValue.known 51820,
   TfValue.known 51820, TfValue.known 0, TfValue.known "192.168.10.200",
   TfValue.known true⟩

/-- Test fixture: the state `resourceCreate` writes for `plan1`. -/
def plan1Created : portForwardingModel := writeBackPlan (cfgFromPlan plan1)

/-- Test fixture: the raw wire record of scenario B. -/
def wireguardRawJson : Json :=
  Json.obj [("Protocol", Json.str "17"), ("ExternalPort", Json.str "51820"),
            ("InternalPort", Json.str "51820"),
            ("DestinationIPAddress", Json.str "192.168.10.200"),
            ("Enable", Json.bool true)]

/-- Test fixture: a network answering getPortForwarding with the
scenario B wire mapping. -/
def netWire : Network := fun _ =>
  HttpOutcome.response 200
    (some (Json.obj [("status", Json.obj [("webui_wireguard", wireguardRawJson)])]))

/-- Test fixture: the record scenario B expects. -/
def wireguardRecord : PortForwarding :=
  ⟨"wireguard", ProtocolUDP, 51820, 51820, 0, "192.168.10.200", true⟩

/-- Test fixture: a raw record whose external port field is not
numeric. -/
def badExternalResp : getPortForwardingResp :=
  ⟨"webui_x", "webui", "x", "Enabled", "data", "6", "abc", "80", "",
   "192.168.1.2", "", 0, false, false, false, true⟩

theorem parseDigitsAux_append (xs ys : List Char) : ∀ acc,
    parseDigitsAux acc (xs ++ ys)
      = (parseDigitsAux acc xs).bind (fun m => parseDigitsAux m ys) := by
  induction xs with
  | nil => intro acc; rfl
  | cons c cs ih =>
    intro acc
    simp only [List.cons_append, parseDigitsAux]
    cases digitVal c with
    | none => rfl
    | some d => simpa using ih (acc * 10 + d)

theorem digitChar_toNat (d : Nat) (h : d < 10) : (digitChar d).toNat = 48 + d := by
  interval_cases d <;> decide

theorem digitVal_digitChar (d : Nat) (h : d < 10) :
    digitVal (digitChar d) = some d := by
  unfold digitVal
  rw [digitChar_toNat d h]
  rw [if_pos (by omega)]
  congr 1
  omega

theorem natDigitsAux_eq_of_lt : ∀ n f, n < f → natDigitsAux f n = natDigits n := by
  intro n
  induction n using Nat.strong_induction_on with
  | _ n ih =>
    intro f hf
    obtain ⟨g, rfl⟩ : ∃ g, f = g + 1 := ⟨f - 1, by omega⟩
    by_cases h10 : n < 10
    · simp [natDigits, natDigitsAux, h10]
    · have hdiv : n / 10 < n := Nat.div_lt_self (by omega) (by omega)
      simp only [natDigits, natDigitsAux, if_neg h10]
      rw [ih (n / 10) hdiv g (by omega), ih (n / 10) hdiv n (by omega)]

theorem natDigits_unfold (n : Nat) :
    natDigits n
      = if n < 10 then [digitChar n]
        else natDigits (n / 10) ++ [digitChar (n % 10)] := by
  show (if n < 10 then [digitChar n]
    else natDigitsAux n (n / 10) ++ [digitChar (n % 10)]) = _
  by_cases h10 : n < 10
  · rw [if_pos h10, if_pos h10]
  · have hdiv : n / 10 < n := Nat.div_lt_self (by omega) (by omega)
    rw [if_neg h10, if_neg h10, natDigitsAux_eq_of_lt (n / 10) n hdiv]

theorem natDigits_ne_nil (n : Nat) : natDigits n ≠ [] := by
  rw [natDigits_unfold]
  by_cases h10 : n < 10 <;> simp [h10]

theorem natDigits_all_digit : ∀ n c, c ∈ natDigits n →
    48 ≤ c.toNat ∧ c.toNat ≤ 57 := by
  intro n
  induction n using Nat.strong_induction_on with
  | _ n ih =>
    intro c hc
    rw [natDigits_unfold] at hc
    by_cases h10 : n < 10
    · rw [if_pos h10] at hc
      have hcd : c = digitChar n := by simpa using hc
      subst hcd
      have := digitChar_toNat n h10
      omega
    · rw [if_neg h10] at hc
      rcases List.mem_append.mp hc with h | h
      · exact ih (n / 10) (Nat.div_lt_self (by omega) (by omega)) c h
      · have hcd : c = digitChar (n % 10) := by simpa using h
        subst hcd
        have := digitChar_toNat (n % 10) (Nat.mod_lt _ (by omega))
        omega

theorem parseDigitsAux_natDigits : ∀ n acc,
    parseDigitsAux acc (natDigits n)
      = some (acc * 10 ^ (natDigits n).length + n) := by
  intro n
  induction n using Nat.strong_induction_on with
  | _ n ih =>
    intro acc
    rw [natDigits_unfold]
    by_cases h10 : n < 10
    · rw [if_pos h10]
      simp [parseDigitsAux, digitVal_digitChar n h10]
    · have hdiv : n / 10 < n := Nat.div_lt_self (by omega) (by omega)
      rw [if_neg h10, parseDigitsAux_append]
      rw [ih (n / 10) hdiv acc]
      have hm : n % 10 < 10 := Nat.mod_lt _ (by omega)
      simp only [Option.some_bind, parseDigitsAux, digitVal_digitChar (n % 10) hm,
        List.length_append, List.length_cons, List.length_nil]
      congr 1
      have key : (acc * 10 ^ (natDigits (n / 10)).length + n / 10) * 10 + n % 10
          = acc * (10 ^ (natDigits (n / 10)).length * 10)
            + (10 * (n / 10) + n % 10) := by ring
      rw [pow_succ]
      rw [key, Nat.div_add_mod]

theorem parseDigits_natDigits (n : Nat) : parseDigits (natDigits n) = some n := by
  obtain ⟨c, cs, hcc⟩ := List.exists_cons_of_ne_nil (natDigits_ne_nil n)
  have h1 : parseDigits (natDigits n) = parseDigitsAux 0 (natDigits n) := by
    rw [hcc]; rfl
  rw [h1, parseDigitsAux_natDigits n 0]
  simp

theorem natDigits_no_dash (n : Nat) : '-' ∉ natDigits n := by
  intro h
  have hb := natDigits_all_digit n '-' h
  have h45 : ('-').toNat = 45 := rfl
  omega

theorem goAtoi_natDigits (n : Nat) : goAtoi (natDigits n) = some (n : Int) := by
  obtain ⟨c, cs, hcc⟩ := List.exists_cons_of_ne_nil (natDigits_ne_nil n)
  have hdig := natDigits_all_digit n c (by rw [hcc]; exact List.mem_cons_self c cs)
  have hplus : ¬ c = '+' := by
    intro h
    rw [h] at hdig
    have h43 : ('+').toNat = 43 := rfl
    omega
  have hminus : ¬ c = '-' := by
    intro h
    rw [h] at hdig
    have h45 : ('-').toNat = 45 := rfl
    omega
  rw [hcc]
  show (if c = '+' then (parseDigits cs).map (fun n => (n : Int))
    else if c = '-' then (parseDigits cs).map (fun n => -(n : Int))
    else (parseDigits (c :: cs)).map (fun n => (n : Int))) = some (n : Int)
  rw [if_neg hplus, if_neg hminus, ← hcc, parseDigits_natDigits]
  rfl

theorem splitFirst_of_not_mem (sep : Char) (l : List Char) (h : sep ∉ l) :
    splitFirst sep l = (l, none) := by
  induction l with
  | nil => rfl
  | cons c cs ih =>
    have hc : ¬ c = sep := by
      intro e
      exact h (e ▸ List.mem_cons_self c cs)
    have hcs : sep ∉ cs := fun m => h (List.mem_cons_of_mem c m)
    simp [splitFirst, hc, ih hcs]

theorem splitFirst_append (sep : Char) (a b : List Char) (h : sep ∉ a) :
    splitFirst sep (a ++ sep :: b) = (a, some b) := by
  induction a with
  | nil => simp [splitFirst]
  | cons c cs ih =>
    have hc : ¬ c = sep := by
      intro e
      exact h (e ▸ List.mem_cons_self c cs)
    have hcs : sep ∉ cs := fun m => h (List.mem_cons_of_mem c m)
    simp [splitFirst, hc, ih hcs]

theorem strData_append (s t : String) : (s ++ t).data = s.data ++ t.data := by
  cases s
  cases t
  rfl

theorem intToChars_nonneg (p : Int) (hp : 0 ≤ p) :
    intToChars p = natDigits p.toNat := by
  simp [intToChars, not_lt.mpr hp]

theorem parsePortRange_of_data_single (s : String) (m : Nat)
    (h : s.data = natDigits m) : parsePortRange s = some ((m : Int), 0) := by
  have h1 : splitFirst '-' s.data = (natDigits m, none) := by
    rw [h]
    exact splitFirst_of_not_mem '-' _ (natDigits_no_dash m)
  simp [parsePortRange, h1, goAtoi_natDigits]

theorem parsePortRange_of_data_pair (s : String) (a b : Nat)
    (h : s.data = natDigits a ++ '-' :: natDigits b) :
    parsePortRange s = some ((a : Int), (b : Int) - (a : Int)) := by
  have h1 : splitFirst '-' s.data = (natDigits a, some (natDigits b)) := by
    rw [h]
    exact splitFirst_append '-' _ _ (natDigits_no_dash a)
  simp [parsePortRange, h1, goAtoi_natDigits]

/-- C4: Port-Range Codec round-trip. For every port p in [1,65535],
formatting the pair obtained by parsing the plain decimal string of p
gives that same string back; and for every range extent r at least 2,
parsing format(p, r) gives back exactly the pair (p, r). -/
theorem c4_port_range_round_trip (p : Int) (hp1 : 1 ≤ p) (hp2 : p ≤ 65535) :
    (parsePortRange (intToString p)).map (fun q => formatPortRange q.1 q.2)
        = some (intToString p)
    ∧ ∀ r : Int, 2 ≤ r → parsePortRange (formatPortRange p r) = some (p, r) := by
  have hp0 : (0 : Int) ≤ p := by omega
  have hptn : ((p.toNat : Int)) = p := Int.toNat_of_nonneg hp0
  constructor
  · have hd : (intToString p).data = natDigits p.toNat := by
      show intToChars p = natDigits p.toNat
      exact intToChars_nonneg p hp0
    rw [parsePortRange_of_data_single _ p.toNat hd]
    simp [formatPortRange, hptn]
  · intro r hr
    have hne : ¬ (r = 0 ∨ r = 1) := by omega
    have hpr0 : (0 : Int) ≤ p + r := by omega
    have hdash : ("-" : String).data = ['-'] := rfl
    have hd : (formatPortRange p r).data
        = natDigits p.toNat ++ '-' :: natDigits (p + r).toNat := by
      unfold formatPortRange
      rw [if_neg hne, strData_append, strData_append, hdash]
      have e1 : (intToString p).data = natDigits p.toNat := by
        show intToChars p = natDigits p.toNat
        exact intToChars_nonneg p hp0
      have e2 : (intToString (p + r)).data = natDigits (p + r).toNat := by
        show intToChars (p + r) = natDigits (p + r).toNat
        exact intToChars_nonneg (p + r) hpr0
      rw [e1, e2]
      simp
    rw [parsePortRange_of_data_pair _ _ _ hd]
    rw [hptn, Int.toNat_of_nonneg hpr0]
    have : p + r - p = r := by ring
    rw [this]

/-- C4 witness: the round trip at port 51820 and range extent 5. -/
theorem c4_witness :
    (parsePortRange (intToString 51820)).map (fun q => formatPortRange q.1 q.2)
        = some (intToString 51820)
    ∧ parsePortRange (formatPortRange 51820 5) = some (51820, 5) :=
  ⟨(c4_port_range_round_trip 51820 (by decide) (by decide)).1,
   (c4_port_range_round_trip 51820 (by decide) (by decide)).2 5 (by decide)⟩

/-- C5: formatPortRange returns the plain decimal string of the port
when the range extent is 0 or 1 (the deliberate collapse), and the
dashed string from port to port plus extent for every other extent. -/
theorem c5_format_port_range (p r : Int) :
    ((r = 0 ∨ r = 1) → formatPortRange p r = intToString p)
    ∧ ((¬ r = 0) → (¬ r = 1) → formatPortRange p r
        = intToString p ++ "-" ++ intToString (p + r)) := by
  constructor
  · intro h
    unfold formatPortRange
    rw [if_pos h]
  · intro h0 h1
    have hne : ¬ (r = 0 ∨ r = 1) := by tauto
    unfold formatPortRange
    rw [if_neg hne]

/-- C5 witness: both branches at concrete inputs, including the collapse
of extent 1 and a negative extent taking the dashed branch. -/
theorem c5_witness :
    formatPortRange 8080 1 = intToString 8080
    ∧ formatPortRange 8080 (-3) = intToString 8080 ++ "-" ++ intToString (8080 + (-3)) :=
  ⟨(c5_format_port_range 8080 1).1 (Or.inr rfl),
   (c5_format_port_range 8080 (-3)).2 (by decide) (by decide)⟩

/-- C6: Protocol Codec. Decoding the encoding of each concrete protocol
gives it back (wire values 6, 17 and 6,17), decoding any other wire
string gives Unknown, and encoding Unknown gives the empty string. -/
theorem c6_protocol_codec (s : String) :
    parseProtocol (Protocol.intString ProtocolTCP) = ProtocolTCP
    ∧ parseProtocol (Protocol.intString ProtocolUDP) = ProtocolUDP
    ∧ parseProtocol (Protocol.intString ProtocolTCPUDP) = ProtocolTCPUDP
    ∧ ((¬ s = "6") → (¬ s = "17") → (¬ s = "6,17") →
        parseProtocol s = ProtocolUnknown)
    ∧ Protocol.intString ProtocolUnknown = "" := by
  refine ⟨by decide, by decide, by decide, ?_, by decide⟩
  intro h1 h2 h3
  unfold parseProtocol
  rw [if_neg h1, if_neg h2, if_neg h3]

/-- C6 witness: an unrecognized wire string decodes to Unknown. -/
theorem c6_witness : parseProtocol "icmp" = ProtocolUnknown :=
  (c6_protocol_codec "icmp").2.2.2.1 (by decide) (by decide) (by decide)

/-- C1: for every call through the authenticated entry point `doReq`,
whenever the response body decodes to an envelope, a non-empty errors
payload (the key present, hence non-empty raw bytes) fails the call with
an API error carrying that raw payload, whatever the HTTP status code;
an empty or absent errors payload returns the status payload as success. -/
theorem c1_errors_payload_decides_call (net : Network) (c : Client)
    (r : apiRequest) (sc : Nat) (body : Json) (resp : apiResponse)
    (hnet : net (mkWsRequest c ("X-Sah " ++ c.token) r)
      = HttpOutcome.response sc (some body))
    (hdec : decodeApiResponse body = some resp) :
    (∀ errs, resp.Errors = some errs →
      doReq net c r = Except.error (doReqError.api errs))
    ∧ (resp.Errors = none → doReq net c r = Except.ok resp.Status) := by
  constructor
  · intro errs herr
    simp [doReq, hnet, hdec, herr]
  · intro herr
    simp [doReq, hnet, hdec, herr]

/-- C1 witness: with a concrete envelope carrying an errors payload the
call fails with that payload even on HTTP 500, and with the errors key
absent the same HTTP 500 response is a success. -/
theorem c1_witness :
    doReq netErrEnvelope client1 listPayload
        = Except.error (doReqError.api (Json.arr [Json.num 13]))
    ∧ doReq netOkEnvelope client1 listPayload = Except.ok (some (Json.num 1)) :=
  ⟨(c1_errors_payload_decides_call netErrEnvelope client1 listPayload 500
      (Json.obj [("status", Json.num 1), ("errors", Json.arr [Json.num 13])])
      ⟨some (Json.num 1), some (Json.arr [Json.num 13])⟩ rfl rfl).1
      (Json.arr [Json.num 13]) rfl,
   (c1_errors_payload_decides_call netOkEnvelope client1 listPayload 500
      (Json.obj [("status", Json.num 1)])
      ⟨some (Json.num 1), none⟩ rfl rfl).2 rfl⟩

/-- C3: the claim says a well-formed login response carrying an
API-level error payload makes login fail and aborts client
construction. The code never inspects the errors payload: on the
concrete well-formed error envelope `loginErrBody` (errors present, no
data), login succeeds and stores the empty string as session token. -/
theorem c3_login_accepts_error_envelope :
    login netLoginErr ⟨"https://livebox.local", ""⟩ "wrong-password"
      = Except.ok ⟨"https://livebox.local", ""⟩ := rfl

/-- C2 counterexample: the shim is a global substring replacement, not a
rename of the one known session cookie: a Cookie header whose only
cookie is named other-sessid (a different cookie from the session cookie
-sessid) is still rewritten, so a cookie other than the known offending
one is changed. -/
theorem c2_counterexample :
    patchRequestCookies [("other-sessid=x").data] = [("other/sessid=x").data]
    ∧ ¬ ("other/sessid=x").data = ("other-sessid=x").data := by
  constructor
  · rfl
  · decide

/-- C2 (amended): each direction of the shim rewrites only the first
header value, by global substring replacement of the store-safe name by
the wire name (outgoing Cookie) and of the wire name by the store-safe
name (incoming Set-Cookie); a first value without an occurrence of the
substring, and every value beyond the first, are left unchanged, and no
value is added or removed. Any occurrence of the substring is rewritten,
including one inside the name or value of a different cookie. -/
theorem c2_shim_rewrites_first_value (v : List Char) (rest : List (List Char)) :
    (containsSub patchedCookieName v = false →
      patchRequestCookies (v :: rest) = v :: rest)
    ∧ (containsSub realCookieName v = false →
      patchResponseCookies (v :: rest) = v :: rest)
    ∧ patchRequestCookies (v :: rest)
        = (if containsSub patchedCookieName v then
            replaceAll patchedCookieName realCookieName v
          else v) :: rest
    ∧ patchResponseCookies (v :: rest)
        = (if containsSub realCookieName v then
            replaceAll realCookieName patchedCookieName v
          else v) :: rest := by
  refine ⟨fun h => ?_, fun h => ?_, ?_, ?_⟩
  · simp [patchRequestCookies, h]
  · simp [patchResponseCookies, h]
  · by_cases hc : containsSub patchedCookieName v = true
    · simp [patchRequestCookies, hc]
    · simp [patchRequestCookies, hc]
  · by_cases hc : containsSub realCookieName v = true
    · simp [patchResponseCookies, hc]
    · simp [patchResponseCookies, hc]

/-- C2 witness: a header whose substring occurrence is exactly the
session cookie name is renamed with every other cookie and attribute
preserved, in both directions, and a header without an occurrence is
untouched. -/
theorem c2_witness :
    patchRequestCookies [("abc=1; other=2").data, ("x=-sessid").data]
        = [("abc=1; other=2").data, ("x=-sessid").data]
    ∧ patchRequestCookies [("-sessid=tok; other=2").data]
        = (if containsSub patchedCookieName (("-sessid=tok; other=2").data) then
            replaceAll patchedCookieName realCookieName
              (("-sessid=tok; other=2").data)
          else ("-sessid=tok; other=2").data) :: []
    ∧ patchResponseCookies [("/sessid=tok; Path=/; HttpOnly").data]
        = (if containsSub realCookieName (("/sessid=tok; Path=/; HttpOnly").data) then
            replaceAll realCookieName patchedCookieName
              (("/sessid=tok; Path=/; HttpOnly").data)
          else ("/sessid=tok; Path=/; HttpOnly").data) :: [] :=
  ⟨(c2_shim_rewrites_first_value (("abc=1; other=2").data)
      [("x=-sessid").data]).1 (by decide),
   (c2_shim_rewrites_first_value (("-sessid=tok; other=2").data) []).2.2.1,
   (c2_shim_rewrites_first_value (("/sessid=tok; Path=/; HttpOnly").data) []).2.2.2⟩

theorem validate_none_iff (cfg : PortForwardingConfig) :
    cfg.validate = none
      ↔ ¬ (cfg.Name = "" ∨ cfg.ExternalPort < 1 ∨ cfg.ExternalPort > 65535
          ∨ cfg.InternalPort < 1 ∨ cfg.InternalPort > 65535
          ∨ cfg.PortRange < 0 ∨ cfg.PortRange > 65535
          ∨ ((¬ cfg.Protocol = ProtocolTCP) ∧ (¬ cfg.Protocol = ProtocolUDP)
              ∧ (¬ cfg.Protocol = ProtocolTCPUDP))
          ∨ goParseIP cfg.Destination = false) := by
  unfold PortForwardingConfig.validate
  split_ifs with h1 h2 h3 h4 h5 h6 <;> simp_all <;> first
  | tauto
  | omega

/-- C7: upsert validates before any network call: it fails with a
validation error and puts no request on the wire exactly when the name
is empty, a port is outside 1..65535, the range extent is outside
0..65535, the protocol is none of the three concrete values, or the
destination is not a valid IP literal; and a config passing validation
has exactly its setPortForwarding request put on the wire. -/
theorem c7_upsert_validates_before_network (net : Network) (c : Client)
    (cfg : PortForwardingConfig) :
    (((∃ msg, (UpsertPortForwarding net c cfg).1
          = Except.error (upsertError.validation msg))
        ∧ (UpsertPortForwarding net c cfg).2 = [])
      ↔ (cfg.Name = "" ∨ cfg.ExternalPort < 1 ∨ cfg.ExternalPort > 65535
          ∨ cfg.InternalPort < 1 ∨ cfg.InternalPort > 65535
          ∨ cfg.PortRange < 0 ∨ cfg.PortRange > 65535
          ∨ ((¬ cfg.Protocol = ProtocolTCP) ∧ (¬ cfg.Protocol = ProtocolUDP)
              ∧ (¬ cfg.Protocol = ProtocolTCPUDP))
          ∨ goParseIP cfg.Destination = false))
    ∧ (cfg.validate = none →
        (UpsertPortForwarding net c cfg).2 = [upsertPayload cfg]) := by
  have hv := validate_none_iff cfg
  constructor
  · constructor
    · rintro ⟨⟨msg, hmsg⟩, htr⟩
      by_contra hdisj
      have hnone : cfg.validate = none := hv.mpr hdisj
      simp only [UpsertPortForwarding, hnone] at htr
      cases hdr : doReq net c (upsertPayload cfg) with
      | error e => rw [hdr] at htr; simp at htr
      | ok u => rw [hdr] at htr; simp at htr
    · intro hdisj
      cases hval : cfg.validate with
      | none => exact absurd hdisj (hv.mp hval)
      | some msg =>
        constructor
        · exact ⟨msg, by simp only [UpsertPortForwarding, hval]⟩
        · simp only [UpsertPortForwarding, hval]
  · intro hnone
    simp only [UpsertPortForwarding, hnone]
    cases hdr : doReq net c (upsertPayload cfg) with
    | error e => rfl
    | ok u => rfl

/-- C7 witness: a valid concrete config passes validation and its
request is put on the wire; an invalid one (bad destination) fails with
a validation error and no request. -/
theorem c7_witness :
    (UpsertPortForwarding netAccept client1 validCfg).2 = [upsertPayload validCfg]
    ∧ ((∃ msg, (UpsertPortForwarding netAccept client1
          { validCfg with Destination := "not-an-ip" }).1
        = Except.error (upsertError.validation msg))
      ∧ (UpsertPortForwarding netAccept client1
          { validCfg with Destination := "not-an-ip" }).2 = []) :=
  ⟨(c7_upsert_validates_before_network netAccept client1 validCfg).2 (by decide),
   (c7_upsert_validates_before_network netAccept client1
      { validCfg with Destination := "not-an-ip" }).1.mpr
      (by decide)⟩

/-- C8: when create succeeds, the state it writes is the plan config
written back verbatim: reading the written state back as a config gives
exactly the config built from the input plan, field for field. -/
theorem c8_create_returns_input_config (net : Network) (c : Client)
    (plan newPlan : portForwardingModel)
    (h : resourceCreate net c plan = some newPlan) :
    cfgFromPlan newPlan = cfgFromPlan plan
    ∧ newPlan = writeBackPlan (cfgFromPlan plan) := by
  simp only [resourceCreate] at h
  cases hup : (UpsertPortForwarding net c (cfgFromPlan plan)).1 with
  | error e =>
    rw [hup] at h
    simp at h
  | ok u =>
    rw [hup] at h
    simp only [Option.some.injEq] at h
    subst h
    exact ⟨rfl, rfl⟩

/-- C8 witness: the concrete valid plan round-trips through create. -/
theorem c8_witness :
    cfgFromPlan plan1Created = cfgFromPlan plan1
    ∧ plan1Created = writeBackPlan (cfgFromPlan plan1) :=
  c8_create_returns_input_config netAccept client1 plan1 plan1Created rfl

/-- C10: validation constrains the external port and the range extent
independently, never their sum: any config with every field in range
passes validation; in particular the config with external port 65535 and
range extent 2 is accepted and its request encodes the external-port
field as the string 65535-65537, whose end lies past 65535. -/
theorem c10_validation_ignores_range_end :
    (∀ cfg : PortForwardingConfig, (¬ cfg.Name = "") →
      1 ≤ cfg.ExternalPort → cfg.ExternalPort ≤ 65535 →
      1 ≤ cfg.InternalPort → cfg.InternalPort ≤ 65535 →
      0 ≤ cfg.PortRange → cfg.PortRange ≤ 65535 →
      (cfg.Protocol = ProtocolTCP ∨ cfg.Protocol = ProtocolUDP
        ∨ cfg.Protocol = ProtocolTCPUDP) →
      goParseIP cfg.Destination = true → cfg.validate = none)
    ∧ overflowCfg.validate = none
    ∧ ("externalPort", ParamValue.pstr "65535-65537")
        ∈ (upsertPayload overflowCfg).Parameters := by
  refine ⟨?_, by decide, by decide⟩
  intro cfg hn he1 he2 hi1 hi2 hr1 hr2 hp hip
  apply (validate_none_iff cfg).mpr
  push_neg
  refine ⟨hn, by omega, by omega, by omega, by omega, by omega, by omega, ?_, ?_⟩
  · intro htcp hudp
    rcases hp with h | h | h
    · exact absurd h htcp
    · exact absurd h hudp
    · exact h
  · simp [hip]

/-- C10 witness: a second boundary config, external port 65535 with
range extent 65535, passes validation. -/
theorem c10_witness :
    PortForwardingConfig.validate
      ⟨"big", 65535, 65535, 65535, ProtocolUDP, "::1", true⟩ = none :=
  c10_validation_ignores_range_end.1
    ⟨"big", 65535, 65535, 65535, ProtocolUDP, "::1", true⟩
    (by decide) (by decide) (by decide) (by decide) (by decide) (by decide)
    (by decide) (Or.inr (Or.inl rfl)) (by decide)

/-- C9: the list decode loop fails the whole call whenever some entry
has a non-numeric external-port or internal-port field (no record is
skipped); and the concrete scenario B wire mapping yields exactly one
record named wireguard with protocol udp, external port 51820, internal
port 51820, range extent 0, the destination copied verbatim and
enabled. -/
theorem c9_list_decode_mapping :
    (∀ (pfr : List (String × getPortForwardingResp))
       (entry : String × getPortForwardingResp), entry ∈ pfr →
       (parsePortRange (entry.2.ExternalPort) = none
         ∨ goAtoiStr (entry.2.InternalPort) = none) →
       ∃ e, decodeEntries pfr = Except.error e)
    ∧ ListPortForwardings netWire client1 = Except.ok [wireguardRecord] := by
  constructor
  · intro pfr
    induction pfr with
    | nil =>
      intro entry hmem
      simp at hmem
    | cons hd tl ih =>
      obtain ⟨id, raw⟩ := hd
      intro entry hmem hbad
      rcases List.mem_cons.mp hmem with rfl | hmem2
      · rcases hbad with hb | hb
        · exact ⟨listError.parsePortRangeFailed, by simp [decodeEntries, hb]⟩
        · cases hpr : parsePortRange raw.ExternalPort with
          | none => exact ⟨listError.parsePortRangeFailed, by simp [decodeEntries, hpr]⟩
          | some v =>
            obtain ⟨a, b⟩ := v
            exact ⟨listError.parseInternalPort, by simp [decodeEntries, hpr, hb]⟩
      · obtain ⟨e, he⟩ := ih entry hmem2 hbad
        cases hpr : parsePortRange raw.ExternalPort with
        | none => exact ⟨listError.parsePortRangeFailed, by simp [decodeEntries, hpr]⟩
        | some v =>
          obtain ⟨a, b⟩ := v
          cases hip : goAtoiStr raw.InternalPort with
          | none => exact ⟨listError.parseInternalPort, by simp [decodeEntries, hpr, hip]⟩
          | some m => exact ⟨e, by simp [decodeEntries, hpr, hip, he]⟩
  · rfl

/-- C9 witness: a mapping with one non-numeric external-port field makes
the decode loop fail rather than skip the record. -/
theorem c9_witness :
    ∃ e, decodeEntries [("webui_x", badExternalResp)] = Except.error e :=
  c9_list_decode_mapping.1 [("webui_x", badExternalResp)]
    ("webui_x", badExternalResp) (List.mem_cons_self _ _)
    (Or.inl (by decide))
